import Mathlib

/-!
Verification development for the todo-backend (Koa + SQLite) repository.

The repository source `src/todo-app.js` contains two application variants
separated by a document marker:
  - variant A: named handlers `list` / `clear` / `add` for `/todos/` only
    (the remaining routes reference undefined handlers);
  - variant B: the full router-chained application covering every route of
    the HTTP table (todos, tags, and todo/tag associations).

This file shallowly embeds the store state (the three SQLite tables
`todos`, `tags`, `todo_tags` with per-table AUTOINCREMENT counters), the
tag-extraction scan (the JS regex `#(\w+)` applied via `exec` and
`replace`), and the route handlers touched by the claims, in a sequential
execution model (each store statement completes before the next is
issued).  JSON values appearing in request bodies and response bodies are
modelled by `JVal`; an absent (`undefined`) body field is `Option.none`.
-/

namespace TodoApp

/-- A JSON value as it appears in request/response bodies.  JS `undefined`
is represented by `Option.none` at the use sites, not by a constructor. -/
inductive JVal where
  | str (s : String)
  | int (n : Int)
  | bool (b : Bool)
  | null
deriving DecidableEq, Repr

/-- JS truthiness of a JSON value (`""`, `0`, `false`, `null` are falsy). -/
def truthy : JVal → Bool
  | .str s => s != ("")
  | .int n => n != 0
  | .bool b => b
  | .null => false

/-- JS truthiness of a possibly-absent value (`undefined` is falsy). -/
def truthyOpt : Option JVal → Bool
  | some v => truthy v
  | none => false

/-! ## Tag extraction (regex `#(\w+)` with `exec` loop and `replace`) -/

/-- JS `\w`: ASCII letters, digits and underscore. -/
def isWordChar (c : Char) : Bool := c.isAlphanum || c = '_'

/-- Take the maximal leading run of word characters (the greedy `\w+`),
returning the run and the remaining characters. -/
def takeWordRun : List Char → List Char × List Char
  | [] => ([], [])
  | c :: cs =>
    if isWordChar c then
      let p := takeWordRun cs
      (c :: p.1, p.2)
    else ([], c :: cs)

/-- The `while ((match = tagRegex.exec(title)) !== null)` loop, written
with a step-count bound (`fuel`) so the scan is structurally recursive and
kernel-computable; each step consumes at least one character, so a fuel of
the input's length (as used by `extractTags`) never runs out. -/
def extractAux : Nat → List Char → List (List Char)
  | 0, _ => []
  | _ + 1, [] => []
  | fuel + 1, c :: cs =>
    if c = '#' ∧ (takeWordRun cs).1 ≠ [] then
      (takeWordRun cs).1 :: extractAux fuel (takeWordRun cs).2
    else
      extractAux fuel cs

/-- Leftmost matches of `#(\w+)`, in order, captures (without the `#`)
collected with duplicates kept. -/
def extractTags (l : List Char) : List (List Char) := extractAux l.length l

/-- `title.replace(tagRegex, '')` with the same structural fuel. -/
def stripAux : Nat → List Char → List Char
  | 0, l => l
  | _ + 1, [] => []
  | fuel + 1, c :: cs =>
    if c = '#' ∧ (takeWordRun cs).1 ≠ [] then
      stripAux fuel (takeWordRun cs).2
    else
      c :: stripAux fuel cs

/-- The title with every matched `#word` token removed (non-matching
characters kept). -/
def stripTags (l : List Char) : List Char := stripAux l.length l

/-- Whitespace removed by JS `String.prototype.trim`. -/
def isWS (c : Char) : Bool := c = ' ' || c = '\t' || c = '\n' || c = '\r'

/-- JS `.trim()`: drop whitespace from both ends. -/
def trim (l : List Char) : List Char :=
  ((l.dropWhile isWS).reverse.dropWhile isWS).reverse

/-- `title.replace(tagRegex, '').trim()`. -/
def cleanedTitle (l : List Char) : List Char := trim (stripTags l)

/-- The extracted tag names of a title, as strings. -/
def tagNames (s : String) : List String :=
  (extractTags s.data).map (fun w => (⟨w⟩ : String))

/-! ## Store state: the three tables and their AUTOINCREMENT counters -/

/-- A row of the `todos` table (`completed` is stored as the 0/1 value the
handlers bind, `order` is the nullable INTEGER column). -/
structure TodoRow where
  id : Nat
  title : String
  completed : Nat
  order : Option Int
deriving DecidableEq, Repr

/-- A row of the `tags` table. -/
structure TagRow where
  id : Nat
  name : String
deriving DecidableEq, Repr

/-- The store: the three tables plus the AUTOINCREMENT sequences (SQLite
`AUTOINCREMENT` ids are monotone and never reused after deletes).  A row
of `todo_tags` is a `(todo_id, tag_id)` pair. -/
structure DB where
  todos : List TodoRow
  tags : List TagRow
  links : List (Nat × Nat)
  nextTodoId : Nat
  nextTagId : Nat
deriving DecidableEq, Repr

/-- `INSERT INTO todos (title, completed, "order") VALUES (?, ?, ?)`:
append the row under the next AUTOINCREMENT id and return `this.lastID`. -/
def insertTodo (db : DB) (title : String) (completed : Nat)
    (order : Option Int) : DB × Nat :=
  let i := db.nextTodoId
  ({ db with todos := db.todos ++ [⟨i, title, completed, order⟩],
             nextTodoId := i + 1 }, i)

/-- One step of the tag resolve-or-create-then-link chain of the
`POST /todos/` handlers:
`SELECT id FROM tags WHERE name = ?`; if found,
`INSERT INTO todo_tags (todo_id, tag_id)` with the existing id (a plain
INSERT: it fails on the `(todo_id, tag_id)` primary key if the pair is
already present); otherwise `INSERT INTO tags (name)` then link
`this.lastID`.  Returns the new store and whether the step succeeded. -/
def linkTag (db : DB) (todoId : Nat) (name : String) : DB × Bool :=
  match db.tags.find? (fun t => t.name == name) with
  | some row =>
    if (todoId, row.id) ∈ db.links then (db, false)
    else ({ db with links := db.links ++ [(todoId, row.id)] }, true)
  | none =>
    let tid := db.nextTagId
    let db' := { db with tags := db.tags ++ [⟨tid, name⟩], nextTagId := tid + 1 }
    if (todoId, tid) ∈ db'.links then (db', false)
    else ({ db' with links := db'.links ++ [(todoId, tid)] }, true)

/-- The `Promise.all(tags.map(...))` over the extracted tag names: every
step executes (a rejected promise does not cancel the rest), in order; the
whole chain succeeds iff every step did. -/
def linkTags (db : DB) (todoId : Nat) : List String → DB × Bool
  | [] => (db, true)
  | n :: rest =>
    let p := linkTag db todoId n
    let q := linkTags p.1 todoId rest
    (q.1, p.2 && q.2)

/-! ## Responses -/

/-- Outcome of a handler: a success status with a body, or an error status
produced by `ctx.throw` / an uncaught exception (Koa renders 500). -/
inductive Outcome (α : Type) where
  | ok (status : Nat) (body : α)
  | err (status : Nat)
deriving DecidableEq, Repr

/-- The body of a todo response: the scalar key/value pairs and the list
of tag sub-objects (each a key/value object of its own). -/
structure TodoResp where
  fields : List (String × JVal)
  tags : List (List (String × JVal))
deriving DecidableEq, Repr

/-- Render the nullable `order` column (`row.order !== null ? row.order :
null`): present with value `null` when NULL in storage. -/
def orderJ : Option Int → JVal
  | some n => .int n
  | none => .null

/-- The row-to-DTO mapping of the variant-B read paths: string `id`,
boolean `completed` from the stored 0/1, null-rendered `order`, derived
`url`. -/
def renderTodoFields (origin : String) (r : TodoRow) : List (String × JVal) :=
  [("id", .str (toString r.id)), ("title", .str r.title),
   ("completed", .bool (r.completed == 1)),
   ("order", orderJ r.order),
   ("url", .str (origin ++ ("/todos/") ++ toString r.id))]

/-- A tag sub-object as rendered by the GET paths: `id` (string), `title`
mapped from the stored `name`, derived `url`. -/
def tagSubObj (origin : String) (t : TagRow) : List (String × JVal) :=
  [("id", .str (toString t.id)), ("title", .str t.name),
   ("url", .str (origin ++ ("/tags/") ++ toString t.id))]

/-- `SELECT tags.id, tags.name FROM tags INNER JOIN todo_tags ON tags.id =
todo_tags.tag_id WHERE todo_tags.todo_id = ?`: for each association row of
the todo, the matching tag row; an association whose tag row no longer
exists is dropped by the inner join. -/
def joinedTags (db : DB) (todoId : Nat) : List TagRow :=
  db.links.filterMap (fun l =>
    if l.1 = todoId then db.tags.find? (fun t => t.id == l.2) else none)

/-- The id resolved by `SELECT id FROM tags WHERE name = ?` (the first —
under the UNIQUE name constraint, the only — row with that name). -/
def tagIdOf (db : DB) (n : String) : Option Nat :=
  (db.tags.find? (fun t => t.name == n)).map (fun t => t.id)

/-! ## Variant-B route handlers -/

/-- A `POST /todos/` or `PATCH /todos/:id` request body (absent fields are
`none`). -/
structure TodoBody where
  title : Option JVal := none
  completed : Option JVal := none
  order : Option JVal := none
deriving DecidableEq, Repr

/-- The `order` validation `if (order !== undefined && typeof order !==
'number') ctx.throw(400, ...)`: `none` means the check failed (400);
`some none` means the field was absent, `some (some n)` a number. -/
def numParam : Option JVal → Option (Option Int)
  | none => some none
  | some (.int n) => some (some n)
  | some _ => none

/-- `POST /todos/` (variant B): validate `order`; extract tags from the
title with the regex (`title.replace` throws a TypeError — an uncaught 500
— when the title is not a string, before any store statement); insert the
todo; resolve-or-create and link each extracted tag; 201 with the created
body on success (the body echoes the request's `completed` value and the
extracted tag names as `{title}`-only sub-objects), 500 if any tag step
failed. -/
def postTodoB (db : DB) (origin : String) (b : TodoBody) : DB × Outcome TodoResp :=
  match numParam b.order with
  | none => (db, .err 400)
  | some ov =>
    match b.title with
    | some (.str s) =>
      let names := tagNames s
      let cleaned : String := ⟨cleanedTitle s.data⟩
      let completedRaw := b.completed.getD (.bool false)
      let cv : Nat := if truthy completedRaw then 1 else 0
      let p := insertTodo db cleaned cv ov
      let q := linkTags p.1 p.2 names
      if q.2 then
        (q.1, .ok 201
          { fields := [("id", .str (toString p.2)), ("title", .str cleaned),
                       ("completed", completedRaw),
                       ("order", orderJ ov),
                       ("url", .str (origin ++ ("/todos/") ++ toString p.2))],
            tags := names.map (fun n => [("title", .str n)]) })
      else (q.1, .err 500)
    | _ => (db, .err 500)

/-- `GET /todos/:id` (variant B): 404 when no row matches, else the mapped
row with its joined tag sub-objects. -/
def getTodoB (db : DB) (origin : String) (id : Nat) : DB × Outcome TodoResp :=
  match db.todos.find? (fun r => r.id == id) with
  | none => (db, .err 404)
  | some r =>
    (db, .ok 200 { fields := renderTodoFields origin r,
                   tags := (joinedTags db id).map (tagSubObj origin) })

/-- `GET /todos/` (variant B): every row mapped, each with its joined tag
sub-objects and derived url. -/
def listTodosB (db : DB) (origin : String) : DB × Outcome (List TodoResp) :=
  (db, .ok 200 (db.todos.map (fun r =>
    { fields := renderTodoFields origin r,
      tags := (joinedTags db r.id).map (tagSubObj origin) })))

/-- The title parameter as bound into `UPDATE todos SET title =
COALESCE(?, title)`: JS `undefined` and `null` both bind as SQL NULL
(COALESCE keeps the prior value); a string binds as itself; a number or
boolean is converted by the TEXT column affinity. -/
def titleBind : Option JVal → Option String
  | some (.str s) => some s
  | some (.int n) => some (toString n)
  | some (.bool b) => some (if b then ("1") else ("0"))
  | some .null => none
  | none => none

/-- `"order" = COALESCE(?, "order")`: a bound number replaces the column,
a NULL binding keeps the prior value (which may itself be NULL). -/
def coalesceOrder (ov : Option Int) (old : Option Int) : Option Int :=
  match ov with
  | some n => some n
  | none => old

/-- The row update performed by
`UPDATE todos SET title = COALESCE(?, title), completed = COALESCE(?,
completed), "order" = COALESCE(?, "order")` on a matched row. -/
def patchRow (b : TodoBody) (ov : Option Int) (r : TodoRow) : TodoRow :=
  { r with
    title := (titleBind b.title).getD r.title,
    completed := (b.completed.map (fun v => if truthy v then 1 else 0)).getD r.completed,
    order := coalesceOrder ov r.order }

/-- `PATCH /todos/:id` (variant B): validate `order` (400 on a non-number,
including `null`); `UPDATE ... SET field = COALESCE(?, field) WHERE id = ?`
— 404 when zero rows change; re-read and return the mapped row (the
response has no `tags` key). -/
def patchTodoB (db : DB) (origin : String) (id : Nat) (b : TodoBody) :
    DB × Outcome TodoResp :=
  match numParam b.order with
  | none => (db, .err 400)
  | some ov =>
    match db.todos.find? (fun r => r.id == id) with
    | none => (db, .err 404)
    | some _ =>
      let db' := { db with todos := db.todos.map (fun r =>
        if r.id == id then patchRow b ov r else r) }
      match db'.todos.find? (fun r => r.id == id) with
      | some r2 => (db', .ok 200 { fields := renderTodoFields origin r2, tags := [] })
      | none => (db', .err 500)

/-- `DELETE /todos/:id` (variant B): `DELETE FROM todos WHERE id = ?`;
404 when zero rows change; the `todo_tags` table is not touched. -/
def deleteTodoB (db : DB) (id : Nat) : DB × Outcome Unit :=
  if db.todos.any (fun r => r.id == id) then
    ({ db with todos := db.todos.filter (fun r => !(r.id == id)) }, .ok 204 ())
  else (db, .err 404)

/-- `DELETE /tags/:id` (variant B): `DELETE FROM tags WHERE id = ?`;
404 when zero rows change; the `todo_tags` table is not touched. -/
def deleteTagB (db : DB) (id : Nat) : DB × Outcome Unit :=
  if db.tags.any (fun t => t.id == id) then
    ({ db with tags := db.tags.filter (fun t => !(t.id == id)) }, .ok 204 ())
  else (db, .err 404)

/-- `SELECT id FROM tags WHERE id = ?` with the raw JSON body value bound:
SQLite INTEGER affinity compares a bound number (or numeric string)
numerically with the id column. -/
def tagIdMatches (v : JVal) (t : TagRow) : Bool :=
  match v with
  | .int n => (t.id : Int) == n
  | .str s => match s.toNat? with | some m => t.id == m | none => false
  | .bool b => t.id == (if b then 1 else 0)
  | .null => false

/-- `POST /todos/:id/tags/` (variant B): 400 when the body's `id` is falsy
(`if (!tagId)`); 404 when the todo or the tag does not exist;
`INSERT OR IGNORE INTO todo_tags (todo_id, tag_id)`; 201 with a message
body. -/
def addTagToTodoB (db : DB) (todoId : Nat) (bodyId : Option JVal) :
    DB × Outcome (List (String × JVal)) :=
  if truthyOpt bodyId then
    if db.todos.any (fun r => r.id == todoId) then
      match bodyId with
      | some v =>
        match db.tags.find? (tagIdMatches v) with
        | some t =>
          let db' :=
            if (todoId, t.id) ∈ db.links then db
            else { db with links := db.links ++ [(todoId, t.id)] }
          (db', .ok 201 [("message", .str ("Tag associated with todo successfully"))])
        | none => (db, .err 404)
      | none => (db, .err 400)
    else (db, .err 404)
  else (db, .err 400)

/-- `GET /todos/:id/tags/` (variant B): 404 when the todo does not exist,
else the joined tag sub-objects. -/
def getTodoTagsB (db : DB) (origin : String) (todoId : Nat) :
    DB × Outcome (List (List (String × JVal))) :=
  if db.todos.any (fun r => r.id == todoId) then
    (db, .ok 200 ((joinedTags db todoId).map (tagSubObj origin)))
  else (db, .err 404)

/-- `GET /tags/` (variant B): every tag row mapped to
`{id: String(row.id), title: row.name, url}`. -/
def listTagsB (db : DB) (origin : String) :
    DB × Outcome (List (List (String × JVal))) :=
  (db, .ok 200 (db.tags.map (tagSubObj origin)))

/-- The HTTP status of an outcome. -/
def statusOf : Outcome α → Nat
  | .ok s _ => s
  | .err s => s

/-- The tag sub-objects of a todo response (`[]` for an error outcome). -/
def respTags : Outcome TodoResp → List (List (String × JVal))
  | .ok _ p => p.tags
  | .err _ => []

/-- The scalar key/value pairs of a todo response (`[]` for an error
outcome). -/
def respFields : Outcome TodoResp → List (String × JVal)
  | .ok _ p => p.fields
  | .err _ => []

/-! ## Variant-A `add` handler -/

/-- Variant A's title validation
`!title || typeof title !== 'string' || !title.length`:
valid exactly when the body carries a non-empty string. -/
def titleValidA : Option JVal → Bool
  | some (.str s) => s != ("")
  | _ => false

/-- The body of variant A's creation response: the scalar fields (the raw
numeric `id`, echoed `completed`) and the extracted tag names, returned as
plain strings. -/
structure RespA where
  fields : List (String × JVal)
  tagNames : List String
deriving DecidableEq, Repr

/-- `add` (variant A `POST /todos/`): reject a missing/non-string/empty
title with 400 before any store statement; otherwise extract tags, insert
the cleaned title with `Date.now()` as `"order"` (`now` is that
timestamp), resolve-or-create and link each tag, and answer 201 (500 when
a tag step failed). -/
def addA (db : DB) (b : TodoBody) (now : Int) : DB × Outcome RespA :=
  match b.title with
  | some (.str s) =>
    if s != ("") then
      let names := tagNames s
      let cleaned : String := ⟨cleanedTitle s.data⟩
      let completedRaw := b.completed.getD (.bool false)
      let cv : Nat := if truthy completedRaw then 1 else 0
      let p := insertTodo db cleaned cv (some now)
      let q := linkTags p.1 p.2 names
      if q.2 then
        (q.1, .ok 201
          { fields := [("id", .int (p.2 : Int)), ("title", .str cleaned),
                       ("completed", completedRaw)],
            tagNames := names })
      else (q.1, .err 500)
    else (db, .err 400)
  | _ => (db, .err 400)

/-! ## Theorems -/

theorem takeWordRun_fst_wordChar (l : List Char) :
    ∀ c ∈ (takeWordRun l).1, isWordChar c = true := by
  induction l with
  | nil => intro c hc; simp [takeWordRun] at hc
  | cons c cs ih =>
    intro d hd
    by_cases h : isWordChar c
    · simp only [takeWordRun, h, if_true] at hd
      rcases List.mem_cons.mp hd with rfl | hd'
      · exact h
      · exact ih d hd'
    · simp [takeWordRun, h] at hd

theorem extractAux_mem (fuel : Nat) :
    ∀ l : List Char, ∀ w ∈ extractAux fuel l,
      w ≠ [] ∧ ∀ c ∈ w, isWordChar c = true := by
  induction fuel with
  | zero => intro l w hw; simp [extractAux] at hw
  | succ fuel ih =>
    intro l w hw
    match l with
    | [] => simp [extractAux] at hw
    | c :: cs =>
      by_cases h : c = '#' ∧ (takeWordRun cs).1 ≠ []
      · simp only [extractAux, if_pos h] at hw
        rcases List.mem_cons.mp hw with rfl | hw'
        · exact ⟨h.2, takeWordRun_fst_wordChar cs⟩
        · exact ih _ w hw'
      · simp only [extractAux, if_neg h] at hw
        exact ih _ w hw

/-- C3: tag extraction is a total function on titles: it returns, in order
of occurrence with duplicates kept, the `#`-word tokens (each a nonempty
run of word characters, without the `#`), together with the title with the
matched tokens removed and the surrounding whitespace trimmed; the title
`"Buy milk #shopping #urgent"` yields cleaned title `"Buy milk"` and tags
`["shopping", "urgent"]`. -/
theorem c3_tag_extraction (t : List Char) :
    tagNames ("Buy milk #shopping #urgent") = [("shopping"), ("urgent")] ∧
    (⟨cleanedTitle (("Buy milk #shopping #urgent") : String).data⟩ : String) =
      ("Buy milk") ∧
    tagNames ("go #a #b #a now") = [("a"), ("b"), ("a")] ∧
    (∀ w ∈ extractTags t, w ≠ [] ∧ ∀ c ∈ w, isWordChar c = true) := by
  refine ⟨by decide, by decide, by decide, ?_⟩
  intro w hw
  exact extractAux_mem _ _ w hw

/-- Witness for `c3_tag_extraction` at the example title and the extracted
token `"shopping"`. -/
theorem c3_tag_extraction_witness :
    ("shopping").data ∈ extractTags (("Buy milk #shopping #urgent") : String).data ∧
    (("shopping").data ≠ [] ∧ ∀ c ∈ ("shopping").data, isWordChar c = true) :=
  ⟨by decide,
   (c3_tag_extraction (("Buy milk #shopping #urgent") : String).data).2.2.2
     (("shopping").data) (by decide)⟩

/-- C2 counterexample: in the store holding todo 1, tag 1 and the
association `(1, 1)`, `DELETE /tags/:id` (and likewise `DELETE
/todos/:id`) succeeds with 204 yet the association row `(1, 1)` is still
in `todo_tags`, contradicting the claim that no row referencing the
deleted id remains. -/
theorem c2_counterexample :
    (deleteTagB ⟨[⟨1, ("x"), 0, none⟩], [⟨1, ("a")⟩], [(1, 1)], 2, 2⟩ 1).2 =
      .ok 204 () ∧
    (1, 1) ∈ (deleteTagB ⟨[⟨1, ("x"), 0, none⟩], [⟨1, ("a")⟩], [(1, 1)], 2, 2⟩ 1).1.links ∧
    (deleteTodoB ⟨[⟨1, ("x"), 0, none⟩], [⟨1, ("a")⟩], [(1, 1)], 2, 2⟩ 1).2 =
      .ok 204 () ∧
    (1, 1) ∈ (deleteTodoB ⟨[⟨1, ("x"), 0, none⟩], [⟨1, ("a")⟩], [(1, 1)], 2, 2⟩ 1).1.links := by
  decide

/-- C2 (amended): `DELETE /tags/:id` (resp. `DELETE /todos/:id`) does not
touch the `todo_tags` table, so rows whose `tag_id` (resp. `todo_id`)
equals the deleted id remain; nevertheless, after deleting a tag, a
subsequent `GET /todos/:id` no longer lists that tag, because the read
path inner-joins `todo_tags` against the `tags` table and the tag row is
gone. -/
theorem c2_dangling_links_but_joined_reads (db : DB) (origin : String) (id : Nat) :
    (deleteTagB db id).1.links = db.links ∧
    (deleteTodoB db id).1.links = db.links ∧
    (∀ x, ∀ t ∈ joinedTags (deleteTagB db id).1 x, t.id ≠ id) ∧
    (∀ x p, (getTodoB (deleteTagB db id).1 origin x).2 = .ok 200 p →
      ∃ ts : List TagRow, p.tags = ts.map (tagSubObj origin) ∧ ∀ t ∈ ts, t.id ≠ id) := by
  have hjoin : ∀ x, ∀ t ∈ joinedTags (deleteTagB db id).1 x, t.id ≠ id := by
    intro x t ht
    rcases List.mem_filterMap.mp ht with ⟨l, _, hl⟩
    by_cases hx : l.1 = x
    · simp only [hx, if_true] at hl
      have hmem := List.mem_of_find?_eq_some hl
      by_cases hdel : db.tags.any (fun tg => tg.id == id)
      · simp only [deleteTagB, hdel, if_true] at hmem
        have := List.of_mem_filter hmem
        simpa using this
      · simp only [deleteTagB, hdel, if_false] at hmem
        intro hcontra
        apply hdel
        rw [List.any_eq_true]
        exact ⟨t, hmem, by simpa using hcontra⟩
    · simp [hx] at hl
  refine ⟨?_, ?_, hjoin, ?_⟩
  · by_cases h : db.tags.any (fun tg => tg.id == id) <;> simp [deleteTagB, h]
  · by_cases h : db.todos.any (fun r => r.id == id) <;> simp [deleteTodoB, h]
  · intro x p hp
    unfold getTodoB at hp
    rcases hfind : (deleteTagB db id).1.todos.find? (fun r => r.id == x) with _ | r
    · rw [hfind] at hp; exact absurd hp (by simp)
    · rw [hfind] at hp
      simp only [Outcome.ok.injEq] at hp
      refine ⟨joinedTags (deleteTagB db id).1 x, ?_, hjoin x⟩
      rw [← hp.2]

/-- Witness for `c2_dangling_links_but_joined_reads` at the concrete store
of the counterexample. -/
theorem c2_dangling_links_witness :
    (deleteTagB ⟨[⟨1, ("x"), 0, none⟩], [⟨1, ("a")⟩], [(1, 1)], 2, 2⟩ 1).1.links =
      [(1, 1)] ∧
    (∀ t ∈ joinedTags (deleteTagB ⟨[⟨1, ("x"), 0, none⟩], [⟨1, ("a")⟩], [(1, 1)], 2, 2⟩ 1).1 1,
      t.id ≠ 1) :=
  ⟨by decide,
   (c2_dangling_links_but_joined_reads
     ⟨[⟨1, ("x"), 0, none⟩], [⟨1, ("a")⟩], [(1, 1)], 2, 2⟩ ("o") 1).2.2.1 1⟩

/-- C6: for an existing todo id and an existing tag id (a store-generated
id, hence nonzero, with at most one association row per pair — the
`(todo_id, tag_id)` primary key), executing `POST /todos/:id/tags/` with
that tag id twice in sequence leaves exactly one `(todo_id, tag_id)` row
in `todo_tags`, and both calls (the second included) answer 201 rather
than a duplicate-key error. -/
theorem c6_add_tag_idempotent (db : DB) (todoId tid : Nat) (nm : String)
    (htodo : db.todos.any (fun r => r.id == todoId) = true)
    (htag : (⟨tid, nm⟩ : TagRow) ∈ db.tags)
    (h0 : tid ≠ 0)
    (hcount : db.links.count (todoId, tid) ≤ 1) :
    (addTagToTodoB (addTagToTodoB db todoId (some (.int (tid : Int)))).1 todoId
        (some (.int (tid : Int)))).1.links.count (todoId, tid) = 1 ∧
    statusOf (addTagToTodoB db todoId (some (.int (tid : Int)))).2 = 201 ∧
    statusOf (addTagToTodoB (addTagToTodoB db todoId (some (.int (tid : Int)))).1 todoId
        (some (.int (tid : Int)))).2 = 201 := by
  have htr : truthyOpt (some (.int (tid : Int))) = true := by
    simp [truthyOpt, truthy, h0]
  obtain ⟨t, hfind, htid⟩ :
      ∃ t, db.tags.find? (tagIdMatches (.int (tid : Int))) = some t ∧ t.id = tid := by
    have hsome : (db.tags.find? (tagIdMatches (.int (tid : Int)))).isSome := by
      rw [List.find?_isSome]
      exact ⟨⟨tid, nm⟩, htag, by simp [tagIdMatches]⟩
    rcases Option.isSome_iff_exists.mp hsome with ⟨t, ht⟩
    have hp := List.find?_some ht
    simp only [tagIdMatches, beq_iff_eq, Nat.cast_inj] at hp
    exact ⟨t, ht, hp⟩
  by_cases hmem : (todoId, tid) ∈ db.links
  · have h1 : addTagToTodoB db todoId (some (.int (tid : Int))) =
        (db, .ok 201 [("message", .str ("Tag associated with todo successfully"))]) := by
      simp [addTagToTodoB, htr, htodo, hfind, htid, hmem]
    have hc : db.links.count (todoId, tid) = 1 :=
      Nat.le_antisymm hcount (List.count_pos_iff_mem.mpr hmem)
    rw [h1]
    exact ⟨by rw [h1]; exact hc, by simp [h1, statusOf], by rw [h1]; simp [statusOf]⟩
  · have hc0 : db.links.count (todoId, tid) = 0 := List.count_eq_zero.mpr hmem
    have h1 : addTagToTodoB db todoId (some (.int (tid : Int))) =
        ({ db with links := db.links ++ [(todoId, tid)] },
         .ok 201 [("message", .str ("Tag associated with todo successfully"))]) := by
      simp [addTagToTodoB, htr, htodo, hfind, htid, hmem]
    have hc1 : (db.links ++ [(todoId, tid)]).count (todoId, tid) = 1 := by
      rw [List.count_append, hc0, List.count_singleton]
      simp
    have hmem1 : (todoId, tid) ∈ db.links ++ [(todoId, tid)] := by
      simp
    have h2 : addTagToTodoB { db with links := db.links ++ [(todoId, tid)] } todoId
        (some (.int (tid : Int))) =
        ({ db with links := db.links ++ [(todoId, tid)] },
         .ok 201 [("message", .str ("Tag associated with todo successfully"))]) := by
      simp [addTagToTodoB, htr, htodo, hfind, htid, hmem1]
    refine ⟨?_, ?_, ?_⟩
    · rw [h1, h2]; exact hc1
    · rw [h1]; rfl
    · rw [h1, h2]; rfl

/-- Witness for `c6_add_tag_idempotent`: todo 1 and tag 1 exist, the pair
is not yet linked; after two identical link requests exactly one
association row is present and both requests answered 201. -/
theorem c6_add_tag_idempotent_witness :
    (addTagToTodoB (addTagToTodoB ⟨[⟨1, ("x"), 0, none⟩], [⟨1, ("a")⟩], [], 2, 2⟩ 1
        (some (.int (1 : Int)))).1 1
        (some (.int (1 : Int)))).1.links.count (1, 1) = 1 ∧
    statusOf (addTagToTodoB (addTagToTodoB ⟨[⟨1, ("x"), 0, none⟩], [⟨1, ("a")⟩], [], 2, 2⟩ 1
        (some (.int (1 : Int)))).1 1
        (some (.int (1 : Int)))).2 = 201 := by
  have h := c6_add_tag_idempotent ⟨[⟨1, ("x"), 0, none⟩], [⟨1, ("a")⟩], [], 2, 2⟩ 1 1 ("a")
    (by decide) (by decide) (by decide) (by decide)
  exact ⟨h.1, h.2.2⟩

/-- C4: a `PATCH /todos/:id` whose body supplies only some of `title`,
`completed`, `order` (with the supplied values well-typed) updates exactly
the supplied fields of the matched row and leaves every unsupplied field —
and every other row — at its prior stored value; in particular a body of
only `{completed: true}` leaves `title` and `order` unchanged.  (Row ids
are unique in the store, being its primary key.) -/
theorem c4_patch_updates_only_supplied (db : DB) (origin : String) (id : Nat)
    (b : TodoBody) (r0 : TodoRow)
    (hnodup : (db.todos.map (fun r => r.id)).Nodup)
    (hfind : db.todos.find? (fun r => r.id == id) = some r0)
    (htitle : b.title = none ∨ ∃ s, b.title = some (.str s))
    (horder : b.order = none ∨ ∃ k, b.order = some (.int k)) :
    ∃ r1 : TodoRow,
      (patchTodoB db origin id b).1.todos =
        db.todos.map (fun r => if r.id = id then r1 else r) ∧
      (∃ p, (patchTodoB db origin id b).2 = .ok 200 p) ∧
      r1.id = r0.id ∧
      (b.title = none → r1.title = r0.title) ∧
      (∀ s, b.title = some (.str s) → r1.title = s) ∧
      (b.completed = none → r1.completed = r0.completed) ∧
      (∀ v, b.completed = some v → r1.completed = if truthy v then 1 else 0) ∧
      (b.order = none → r1.order = r0.order) ∧
      (∀ k, b.order = some (.int k) → r1.order = some k) := by
  obtain ⟨ov, hov⟩ : ∃ ov, numParam b.order = some ov := by
    rcases horder with h | ⟨k, h⟩
    · refine ⟨none, ?_⟩; rw [h]; rfl
    · refine ⟨some k, ?_⟩; rw [h]; rfl
  have hid0 : r0.id = id := by simpa using List.find?_some hfind
  have hmem0 := List.mem_of_find?_eq_some hfind
  have hcomp : ((fun r : TodoRow => r.id == id) ∘ (fun r : TodoRow =>
      if r.id == id then patchRow b ov r else r)) = (fun r : TodoRow => r.id == id) := by
    funext r
    by_cases h : r.id = id
    · simp [h, patchRow]
    · simp [h]
  have hfind2 : (db.todos.map (fun r =>
      if r.id == id then patchRow b ov r else r)).find? (fun r => r.id == id) =
      some (patchRow b ov r0) := by
    rw [List.find?_map, hcomp, hfind]
    simp [hid0]
  have hpatch : patchTodoB db origin id b =
      ({ db with todos := db.todos.map (fun r => if r.id == id then patchRow b ov r else r) },
       .ok 200 { fields := renderTodoFields origin (patchRow b ov r0), tags := [] }) := by
    simp only [patchTodoB, hov, hfind, hfind2]
  refine ⟨patchRow b ov r0, ?_, ?_, ?_, ?_, ?_, ?_, ?_, ?_, ?_⟩
  · rw [hpatch]
    refine List.map_congr_left ?_
    intro r hr
    by_cases h : r.id = id
    · have : r = r0 := List.inj_on_of_nodup_map hnodup hr hmem0 (by rw [h, hid0])
      subst this
      simp [h]
    · simp [h]
  · rw [hpatch]
    exact ⟨_, rfl⟩
  · rfl
  · intro h; simp [patchRow, titleBind, h]
  · intro s h; simp [patchRow, titleBind, h]
  · intro h; simp [patchRow, h]
  · intro v h; simp [patchRow, h]
  · intro h
    have hovn : ov = none := by rw [h] at hov; simpa [numParam] using hov.symm
    simp [patchRow, hovn, coalesceOrder]
  · intro k h
    have hovk : ov = some k := by rw [h] at hov; simpa [numParam] using hov.symm
    simp [patchRow, hovk, coalesceOrder]

/-- Witness for `c4_patch_updates_only_supplied`: patching todo 1 with
only `{completed: true}` leaves `title` and `order` unchanged. -/
theorem c4_patch_witness :
    (patchTodoB ⟨[⟨1, ("x"), 0, some 5⟩], [], [], 2, 1⟩ ("o") 1
        { completed := some (.bool true) }).1.todos = [⟨1, ("x"), 1, some 5⟩] ∧
    (∃ r1 : TodoRow,
      (patchTodoB ⟨[⟨1, ("x"), 0, some 5⟩], [], [], 2, 1⟩ ("o") 1
          { completed := some (.bool true) }).1.todos =
        [⟨1, ("x"), 0, some 5⟩].map (fun r => if r.id = 1 then r1 else r) ∧
      (∃ p, (patchTodoB ⟨[⟨1, ("x"), 0, some 5⟩], [], [], 2, 1⟩ ("o") 1
          { completed := some (.bool true) }).2 = .ok 200 p) ∧
      r1.id = 1 ∧
      r1.title = ("x") ∧ r1.completed = 1 ∧ r1.order = some 5) := by
  constructor
  · decide
  · obtain ⟨r1, hmap, hok, hid, hta, _, _, htc, hto, _⟩ :=
      c4_patch_updates_only_supplied ⟨[⟨1, ("x"), 0, some 5⟩], [], [], 2, 1⟩ ("o") 1
        { completed := some (.bool true) } ⟨1, ("x"), 0, some 5⟩
        (by decide) (by decide) (Or.inl rfl) (Or.inl rfl)
    exact ⟨r1, hmap, hok, hid, hta rfl, htc (.bool true) rfl, hto rfl⟩

/-- C10: once a todo's `order` is non-null, no `PATCH /todos/:id` can
return it to null: a body with `order: null` is rejected with 400 by the
numeric type check (store untouched), and otherwise the COALESCE update
either keeps the prior `order` (when the field is absent) or sets a
number, so (row by row) every todo whose `order` was non-null still has
non-null `order` after the request, successful or failed. -/
theorem c10_order_never_back_to_null (db : DB) (origin : String) (id : Nat)
    (b : TodoBody) :
    (b.order = some .null → patchTodoB db origin id b = (db, .err 400)) ∧
    List.Forall₂ (fun r r' : TodoRow => r.order ≠ none → r'.order ≠ none)
      db.todos (patchTodoB db origin id b).1.todos := by
  refine ⟨fun h => by simp [patchTodoB, h, numParam], ?_⟩
  have hrefl : ∀ l : List TodoRow,
      List.Forall₂ (fun r r' : TodoRow => r.order ≠ none → r'.order ≠ none) l l :=
    fun l => List.forall₂_same.mpr (fun x _ hx => hx)
  rcases hov : numParam b.order with _ | ov
  · simp only [patchTodoB, hov]; exact hrefl _
  · rcases hfind : db.todos.find? (fun r => r.id == id) with _ | r0
    · simp only [patchTodoB, hov, hfind]; exact hrefl _
    · have hstate : (patchTodoB db origin id b).1.todos =
          db.todos.map (fun r => if r.id == id then patchRow b ov r else r) := by
        simp only [patchTodoB, hov, hfind]
        rcases hf2 : (db.todos.map (fun r =>
            if r.id == id then patchRow b ov r else r)).find? (fun r => r.id == id) with _ | r2 <;>
          simp only [hf2]
      rw [hstate, List.forall₂_map_right_iff]
      refine List.forall₂_same.mpr ?_
      intro r hr hnn
      by_cases h : r.id = id
      · simp only [h, beq_self_eq_true, if_true]
        rcases ov with _ | n
        · simpa [patchRow, coalesceOrder] using hnn
        · simp [patchRow, coalesceOrder]
      · simpa [h] using hnn

/-- Witness for `c10_order_never_back_to_null`: in a store whose only
todo has `order = 5`, a `PATCH` body `{order: null}` is rejected with 400
and the row's `order` stays non-null. -/
theorem c10_order_witness :
    patchTodoB ⟨[⟨1, ("x"), 0, some 5⟩], [], [], 2, 1⟩ ("o") 1 { order := some .null } =
      (⟨[⟨1, ("x"), 0, some 5⟩], [], [], 2, 1⟩, .err 400) ∧
    (patchTodoB ⟨[⟨1, ("x"), 0, some 5⟩], [], [], 2, 1⟩ ("o") 1
        { order := some .null }).1.todos.map (fun r => r.order) = [some 5] ∧
    List.Forall₂ (fun r r' : TodoRow => r.order ≠ none → r'.order ≠ none)
      [⟨1, ("x"), 0, some 5⟩]
      (patchTodoB ⟨[⟨1, ("x"), 0, some 5⟩], [], [], 2, 1⟩ ("o") 1
        { order := some .null }).1.todos := by
  have h := c10_order_never_back_to_null ⟨[⟨1, ("x"), 0, some 5⟩], [], [], 2, 1⟩ ("o") 1
    { order := some .null }
  exact ⟨h.1 rfl, by decide, h.2⟩

/-- C7 counterexample: variant B performs no title validation: `POST
/todos/` with the empty-string title answers 201 and inserts a todo row,
instead of rejecting with 400 and leaving the store unchanged. -/
theorem c7_counterexample :
    statusOf (postTodoB ⟨[], [], [], 1, 1⟩ ("o") { title := some (.str ("")) }).2 = 201 ∧
    (postTodoB ⟨[], [], [], 1, 1⟩ ("o") { title := some (.str ("")) }).1.todos =
      [⟨1, (""), 0, none⟩] := by
  decide

/-- C7 (amended): variant A's `add` rejects a missing, non-string or empty
title with 400 before any store statement; variant B has no title
validation — a missing or non-string title makes `title.replace` throw a
TypeError (surfacing as 500) before any store statement, while an
empty-string title is accepted. -/
theorem c7_title_validation (db : DB) (origin : String) (b : TodoBody) (now : Int) :
    (titleValidA b.title = false → addA db b now = (db, .err 400)) ∧
    ((∀ s, b.title ≠ some (.str s)) → numParam b.order ≠ none →
      postTodoB db origin b = (db, .err 500)) := by
  constructor
  · intro hv
    rcases ht : b.title with _ | v
    · simp [addA, ht]
    · rcases v with s | n | bb | _
      · rw [ht] at hv
        simp only [titleValidA] at hv
        simp [addA, ht, hv]
      · simp [addA, ht]
      · simp [addA, ht]
      · simp [addA, ht]
  · intro hns ho
    rcases hov : numParam b.order with _ | ov
    · exact absurd hov ho
    · rcases ht : b.title with _ | v
      · simp [postTodoB, hov, ht]
      · rcases v with s | n | bb | _
        · exact absurd ht (hns s)
        · simp [postTodoB, hov, ht]
        · simp [postTodoB, hov, ht]
        · simp [postTodoB, hov, ht]

/-- Witness for `c7_title_validation`: a numeric title is rejected with
400 by variant A and raises the 500 path in variant B, both leaving the
store unchanged. -/
theorem c7_title_validation_witness :
    addA ⟨[], [], [], 1, 1⟩ { title := some (.int 7) } 0 =
      (⟨[], [], [], 1, 1⟩, .err 400) ∧
    postTodoB ⟨[], [], [], 1, 1⟩ ("o") { title := some (.int 7) } =
      (⟨[], [], [], 1, 1⟩, .err 500) := by
  have h := c7_title_validation ⟨[], [], [], 1, 1⟩ ("o") { title := some (.int 7) } 0
  exact ⟨h.1 (by decide), h.2 (fun s hs => by simp at hs) (by simp [numParam])⟩

theorem linkTag_todos (db : DB) (i : Nat) (m : String) :
    (linkTag db i m).1.todos = db.todos ∧ (linkTag db i m).1.nextTodoId = db.nextTodoId := by
  rcases hf : db.tags.find? (fun t => t.name == m) with _ | row <;>
    simp only [linkTag, hf] <;> split <;> exact ⟨rfl, rfl⟩

theorem linkTags_todos (i : Nat) (L : List String) (db : DB) :
    (linkTags db i L).1.todos = db.todos ∧
    (linkTags db i L).1.nextTodoId = db.nextTodoId := by
  induction L generalizing db with
  | nil => exact ⟨rfl, rfl⟩
  | cons m rest ih =>
    simp only [linkTags]
    have h1 := linkTag_todos db i m
    have h2 := ih (linkTag db i m).1
    exact ⟨h2.1.trans h1.1, h2.2.trans h1.2⟩

/-- C5 counterexample: `POST /todos/` with title `"x #a #a"` on the empty
store fails (the second association insert violates the `(todo_id,
tag_id)` primary key), surfaces 500 — but the store is not left as it was:
the todo row was persisted (together with the tag and one association). -/
theorem c5_counterexample :
    (postTodoB ⟨[], [], [], 1, 1⟩ ("o") { title := some (.str ("x #a #a")) }).2 =
      .err 500 ∧
    (postTodoB ⟨[], [], [], 1, 1⟩ ("o") { title := some (.str ("x #a #a")) }).1 ≠
      ⟨[], [], [], 1, 1⟩ ∧
    (postTodoB ⟨[], [], [], 1, 1⟩ ("o") { title := some (.str ("x #a #a")) }).1.todos =
      [⟨1, ("x"), 0, none⟩] := by
  decide

/-- C5 (amended): when a tag resolve-or-create or association-insert step
of `POST /todos/` fails after the todo row was inserted, the request
surfaces error 500 and no 2xx body — but the store is left partially
applied: the inserted todo row remains, without all of its tag
associations. -/
theorem c5_error_partial_application (db : DB) (origin : String) (b : TodoBody)
    (ov : Option Int) (s : String)
    (ho : numParam b.order = some ov) (ht : b.title = some (.str s))
    (hfail : (linkTags (insertTodo db (⟨cleanedTitle s.data⟩ : String)
        (if truthy (b.completed.getD (.bool false)) then 1 else 0) ov).1
        db.nextTodoId (tagNames s)).2 = false) :
    (postTodoB db origin b).2 = .err 500 ∧
    (⟨db.nextTodoId, (⟨cleanedTitle s.data⟩ : String),
      (if truthy (b.completed.getD (.bool false)) then 1 else 0), ov⟩ : TodoRow) ∈
      (postTodoB db origin b).1.todos := by
  have hstate : postTodoB db origin b =
      ((linkTags (insertTodo db (⟨cleanedTitle s.data⟩ : String)
          (if truthy (b.completed.getD (.bool false)) then 1 else 0) ov).1
          db.nextTodoId (tagNames s)).1, .err 500) := by
    have hfail' := hfail
    simp only [insertTodo] at hfail'
    simp only [postTodoB, ho, ht, insertTodo]
    rw [if_neg (by simp [hfail'])]
  rw [hstate]
  refine ⟨rfl, ?_⟩
  rw [(linkTags_todos _ _ _).1]
  simp [insertTodo]

/-- Witness for `c5_error_partial_application` at the `"x #a #a"` input on
the empty store. -/
theorem c5_error_partial_application_witness :
    (postTodoB ⟨[], [], [], 1, 1⟩ ("o") { title := some (.str ("x #a #a")) }).2 =
      .err 500 ∧
    (⟨1, ("x"), 0, none⟩ : TodoRow) ∈
      (postTodoB ⟨[], [], [], 1, 1⟩ ("o") { title := some (.str ("x #a #a")) }).1.todos := by
  have h := c5_error_partial_application ⟨[], [], [], 1, 1⟩ ("o")
    { title := some (.str ("x #a #a")) } none ("x #a #a") (by decide) (by decide) (by decide)
  exact ⟨h.1, by simpa using h.2⟩

/-- C8 counterexample: the `POST /todos/` creation response echoes the
request's raw `completed` value instead of deriving a boolean from the
stored 0/1: with body `{title: "x", completed: 1}` the created todo is
stored with `completed = 1` but the 201 body's `completed` field is the
number 1, not a boolean. -/
theorem c8_counterexample :
    statusOf (postTodoB ⟨[], [], [], 1, 1⟩ ("o")
      { title := some (.str ("x")), completed := some (.int 1) }).2 = 201 ∧
    (postTodoB ⟨[], [], [], 1, 1⟩ ("o")
      { title := some (.str ("x")), completed := some (.int 1) }).1.todos =
      [⟨1, ("x"), 1, none⟩] ∧
    (respFields (postTodoB ⟨[], [], [], 1, 1⟩ ("o")
      { title := some (.str ("x")), completed := some (.int 1) }).2).lookup ("completed") =
      some (.int 1) ∧
    ¬ ∃ bv : Bool, (respFields (postTodoB ⟨[], [], [], 1, 1⟩ ("o")
      { title := some (.str ("x")), completed := some (.int 1) }).2).lookup ("completed") =
      some (.bool bv) := by
  decide

/-- C8 (amended): in the list, get and update responses every rendered
todo row has a string `id`, a boolean `completed` derived from the stored
0/1 value, and an `order` key present with value null when NULL in storage
(tag rows are likewise rendered with a string `id`); the creation response
has a string `id` and a present `order`, but its `completed` field echoes
the request body's value and is a boolean only when the request sent
one. -/
theorem c8_row_rendering (db : DB) (origin : String) :
    (∀ r : TodoRow,
      (renderTodoFields origin r).lookup ("id") = some (.str (toString r.id)) ∧
      (renderTodoFields origin r).lookup ("completed") = some (.bool (r.completed == 1)) ∧
      (renderTodoFields origin r).lookup ("order") = some (orderJ r.order)) ∧
    (∀ t : TagRow, (tagSubObj origin t).lookup ("id") = some (.str (toString t.id))) ∧
    (∀ resps, (listTodosB db origin).2 = .ok 200 resps →
      ∀ p ∈ resps, ∃ r ∈ db.todos, p.fields = renderTodoFields origin r) ∧
    (∀ id p, (getTodoB db origin id).2 = .ok 200 p →
      ∃ r ∈ db.todos, r.id = id ∧ p.fields = renderTodoFields origin r) ∧
    (∀ id b p, (patchTodoB db origin id b).2 = .ok 200 p →
      ∃ r ∈ (patchTodoB db origin id b).1.todos, p.fields = renderTodoFields origin r) ∧
    (∀ b p, (postTodoB db origin b).2 = .ok 201 p →
      p.fields.lookup ("id") = some (.str (toString db.nextTodoId)) ∧
      (∃ ov, numParam b.order = some ov ∧ p.fields.lookup ("order") = some (orderJ ov)) ∧
      p.fields.lookup ("completed") = some (b.completed.getD (.bool false))) := by
  refine ⟨?_, ?_, ?_, ?_, ?_, ?_⟩
  · intro r
    refine ⟨?_, ?_, ?_⟩ <;> simp [renderTodoFields, List.lookup]
  · intro t
    simp [tagSubObj, List.lookup]
  · intro resps hr p hp
    have : resps = db.todos.map (fun r =>
        { fields := renderTodoFields origin r,
          tags := (joinedTags db r.id).map (tagSubObj origin) : TodoResp }) := by
      simpa [listTodosB] using hr.symm
    subst this
    rcases List.mem_map.mp hp with ⟨r, hrm, hre⟩
    exact ⟨r, hrm, by rw [← hre]⟩
  · intro id p hp
    rcases hfind : db.todos.find? (fun r => r.id == id) with _ | r
    · simp only [getTodoB, hfind] at hp
      exact absurd hp (by simp)
    · have hmem := List.mem_of_find?_eq_some hfind
      have hid : r.id = id := by simpa using List.find?_some hfind
      simp only [getTodoB, hfind, Outcome.ok.injEq] at hp
      obtain ⟨-, hp⟩ := hp
      exact ⟨r, hmem, hid, by rw [← hp]⟩
  · intro id b p hp
    rcases hov : numParam b.order with _ | ov
    · simp only [patchTodoB, hov] at hp
      exact absurd hp (by simp)
    · rcases hfind : db.todos.find? (fun r => r.id == id) with _ | r0
      · simp only [patchTodoB, hov, hfind] at hp
        exact absurd hp (by simp)
      · rcases hfind2 : (db.todos.map (fun r =>
            if r.id == id then patchRow b ov r else r)).find? (fun r => r.id == id) with _ | r2
        · simp only [patchTodoB, hov, hfind, hfind2] at hp
          exact absurd hp (by simp)
        · have hmem2 := List.mem_of_find?_eq_some hfind2
          have hstate : (patchTodoB db origin id b).1.todos =
              db.todos.map (fun r => if r.id == id then patchRow b ov r else r) := by
            simp only [patchTodoB, hov, hfind, hfind2]
          simp only [patchTodoB, hov, hfind, hfind2, Outcome.ok.injEq] at hp
          obtain ⟨-, hp⟩ := hp
          rw [hstate]
          exact ⟨r2, hmem2, by rw [← hp]⟩
  · intro b p hp
    rcases hov : numParam b.order with _ | ov
    · simp only [postTodoB, hov] at hp
      exact absurd hp (by simp)
    · rcases ht : b.title with _ | v
      · simp only [postTodoB, hov, ht] at hp
        exact absurd hp (by simp)
      · rcases v with s | n | bb | _
        · by_cases hq : (linkTags (insertTodo db (⟨cleanedTitle s.data⟩ : String)
              (if truthy (b.completed.getD (.bool false)) then 1 else 0) ov).1
              db.nextTodoId (tagNames s)).2 = true
          · have hq' := hq
            simp only [insertTodo] at hq'
            simp only [postTodoB, hov, ht, insertTodo, hq', if_true, Outcome.ok.injEq] at hp
            obtain ⟨-, hp⟩ := hp
            subst hp
            exact ⟨by simp [List.lookup], ⟨ov, rfl, by simp [List.lookup]⟩, by simp [List.lookup]⟩
          · have hq' : (linkTags (insertTodo db (⟨cleanedTitle s.data⟩ : String)
                (if truthy (b.completed.getD (.bool false)) then 1 else 0) ov).1
                db.nextTodoId (tagNames s)).2 = false := by
              simpa using hq
            simp only [insertTodo] at hq'
            simp only [postTodoB, hov, ht, insertTodo, hq', if_false] at hp
            exact absurd hp (by simp)
        · simp only [postTodoB, hov, ht] at hp
          exact absurd hp (by simp)
        · simp only [postTodoB, hov, ht] at hp
          exact absurd hp (by simp)
        · simp only [postTodoB, hov, ht] at hp
          exact absurd hp (by simp)

/-- Witness for `c8_row_rendering` at a concrete store: the get response
for todo 1 renders the stored row with string id, boolean completed and
null order. -/
theorem c8_row_rendering_witness :
    (respFields (getTodoB ⟨[⟨1, ("x"), 1, none⟩], [], [], 2, 1⟩ ("o") 1).2).lookup ("id") =
      some (.str ("1")) ∧
    (∃ r ∈ (⟨[⟨1, ("x"), 1, none⟩], [], [], 2, 1⟩ : DB).todos, r.id = 1 ∧
      respFields (getTodoB ⟨[⟨1, ("x"), 1, none⟩], [], [], 2, 1⟩ ("o") 1).2 =
        renderTodoFields ("o") r) := by
  constructor
  · decide
  · obtain ⟨r, hm, hid, hf⟩ :=
      (c8_row_rendering ⟨[⟨1, ("x"), 1, none⟩], [], [], 2, 1⟩ ("o")).2.2.2.1 1
        { fields := renderTodoFields ("o") ⟨1, ("x"), 1, none⟩,
          tags := [] } (by decide)
    exact ⟨r, hm, hid, by rw [← hf]; decide⟩

/-- C9 counterexample: in the `POST /todos/` creation response the tag
sub-objects carry only `title`: for title `"x #a"` the single sub-object
has no `id` and no `url` key. -/
theorem c9_counterexample :
    statusOf (postTodoB ⟨[], [], [], 1, 1⟩ ("o") { title := some (.str ("x #a")) }).2 = 201 ∧
    respTags (postTodoB ⟨[], [], [], 1, 1⟩ ("o") { title := some (.str ("x #a")) }).2 =
      [[("title", .str ("a"))]] ∧
    (respTags (postTodoB ⟨[], [], [], 1, 1⟩ ("o")
      { title := some (.str ("x #a")) }).2).map (fun o => o.lookup ("id")) = [none] ∧
    (respTags (postTodoB ⟨[], [], [], 1, 1⟩ ("o")
      { title := some (.str ("x #a")) }).2).map (fun o => o.lookup ("url")) = [none] := by
  decide

/-- C9 (amended): in `GET /todos/`, `GET /todos/:id` and `GET
/todos/:id/tags/` every tag sub-object attached to a todo carries a string
`id`, a `title` mapped from the stored `name` column and a derived `url`;
in the `POST /todos/` creation response the tag sub-objects carry only
`title` (no `id`, no `url`). -/
theorem c9_tag_subobjects (db : DB) (origin : String) :
    (∀ t : TagRow,
      (tagSubObj origin t).lookup ("id") = some (.str (toString t.id)) ∧
      (tagSubObj origin t).lookup ("title") = some (.str t.name) ∧
      (tagSubObj origin t).lookup ("url") =
        some (.str (origin ++ ("/tags/") ++ toString t.id))) ∧
    (∀ id p, (getTodoB db origin id).2 = .ok 200 p →
      ∃ ts : List TagRow, p.tags = ts.map (tagSubObj origin)) ∧
    (∀ resps, (listTodosB db origin).2 = .ok 200 resps →
      ∀ p ∈ resps, ∃ ts : List TagRow, p.tags = ts.map (tagSubObj origin)) ∧
    (∀ id subs, (getTodoTagsB db origin id).2 = .ok 200 subs →
      ∃ ts : List TagRow, subs = ts.map (tagSubObj origin)) ∧
    (∀ b p, (postTodoB db origin b).2 = .ok 201 p →
      ∀ o ∈ p.tags, o.lookup ("id") = none ∧ ∃ nm, o = [("title", JVal.str nm)]) := by
  refine ⟨?_, ?_, ?_, ?_, ?_⟩
  · intro t
    refine ⟨?_, ?_, ?_⟩ <;> simp [tagSubObj, List.lookup]
  · intro id p hp
    rcases hfind : db.todos.find? (fun r => r.id == id) with _ | r
    · simp only [getTodoB, hfind] at hp
      exact absurd hp (by simp)
    · simp only [getTodoB, hfind, Outcome.ok.injEq] at hp
      obtain ⟨-, hp⟩ := hp
      exact ⟨joinedTags db id, by rw [← hp]⟩
  · intro resps hr p hp
    have : resps = db.todos.map (fun r =>
        { fields := renderTodoFields origin r,
          tags := (joinedTags db r.id).map (tagSubObj origin) : TodoResp }) := by
      simpa [listTodosB] using hr.symm
    subst this
    rcases List.mem_map.mp hp with ⟨r, _, hre⟩
    exact ⟨joinedTags db r.id, by rw [← hre]⟩
  · intro id subs hp
    by_cases hex : db.todos.any (fun r => r.id == id)
    · simp only [getTodoTagsB, hex, if_true, Outcome.ok.injEq] at hp
      obtain ⟨-, hp⟩ := hp
      exact ⟨joinedTags db id, by rw [← hp]⟩
    · simp only [getTodoTagsB, hex, if_false] at hp
      exact absurd hp (by simp)
  · intro b p hp o ho
    rcases hov : numParam b.order with _ | ov
    · simp only [postTodoB, hov] at hp
      exact absurd hp (by simp)
    · rcases ht : b.title with _ | v
      · simp only [postTodoB, hov, ht] at hp
        exact absurd hp (by simp)
      · rcases v with s | n | bb | _
        · by_cases hq : (linkTags (insertTodo db (⟨cleanedTitle s.data⟩ : String)
              (if truthy (b.completed.getD (.bool false)) then 1 else 0) ov).1
              db.nextTodoId (tagNames s)).2 = true
          · have hq' := hq
            simp only [insertTodo] at hq'
            simp only [postTodoB, hov, ht, insertTodo, hq', if_true, Outcome.ok.injEq] at hp
            obtain ⟨-, hp⟩ := hp
            subst hp
            rcases List.mem_map.mp ho with ⟨nm, _, hno⟩
            exact ⟨by rw [← hno]; simp [List.lookup], nm, hno.symm⟩
          · have hq' : (linkTags (insertTodo db (⟨cleanedTitle s.data⟩ : String)
                (if truthy (b.completed.getD (.bool false)) then 1 else 0) ov).1
                db.nextTodoId (tagNames s)).2 = false := by
              simpa using hq
            simp only [insertTodo] at hq'
            simp only [postTodoB, hov, ht, insertTodo, hq', if_false] at hp
            exact absurd hp (by simp)
        · simp only [postTodoB, hov, ht] at hp
          exact absurd hp (by simp)
        · simp only [postTodoB, hov, ht] at hp
          exact absurd hp (by simp)
        · simp only [postTodoB, hov, ht] at hp
          exact absurd hp (by simp)

/-- Witness for `c9_tag_subobjects` at a concrete store: the sub-object
rendered for tag 1 carries id, title and url. -/
theorem c9_tag_subobjects_witness :
    (tagSubObj ("o") ⟨1, ("a")⟩).lookup ("id") = some (.str ("1")) ∧
    (tagSubObj ("o") ⟨1, ("a")⟩).lookup ("title") = some (.str ("a")) ∧
    (tagSubObj ("o") ⟨1, ("a")⟩).lookup ("url") = some (.str ("o/tags/1")) := by
  have h := (c9_tag_subobjects ⟨[], [], [], 1, 1⟩ ("o")).1 ⟨1, ("a")⟩
  exact ⟨h.1, h.2.1, by rw [h.2.2]; decide⟩

theorem find?_append_some {α : Type} (p : α → Bool) (l1 l2 : List α) (x : α)
    (h : l1.find? p = some x) : (l1 ++ l2).find? p = some x := by
  rw [List.find?_append, h]
  rfl

theorem find?_append_none {α : Type} (p : α → Bool) (l1 l2 : List α)
    (h : l1.find? p = none) : (l1 ++ l2).find? p = l2.find? p := by
  rw [List.find?_append, h]
  rfl

/-- `linkTag` leaves the tags table unchanged (name found) or appends the
freshly created row (name absent). -/
theorem linkTag_tags_cases (db : DB) (i : Nat) (m : String) :
    (linkTag db i m).1.tags = db.tags ∨
    ((linkTag db i m).1.tags = db.tags ++ [⟨db.nextTagId, m⟩] ∧
      db.tags.find? (fun t => t.name == m) = none) := by
  rcases hf : db.tags.find? (fun t => t.name == m) with _ | row
  · right
    refine ⟨?_, hf⟩
    simp only [linkTag, hf]
    split <;> rfl
  · left
    simp only [linkTag, hf]
    split <;> rfl

/-- `linkTag` only ever appends to the association table. -/
theorem linkTag_links_mono (db : DB) (i : Nat) (m : String) (x : Nat × Nat)
    (h : x ∈ db.links) : x ∈ (linkTag db i m).1.links := by
  rcases hf : db.tags.find? (fun t => t.name == m) with _ | row <;>
    simp only [linkTag, hf] <;> split
  · exact h
  · exact List.mem_append_left _ h
  · exact h
  · exact List.mem_append_left _ h

theorem linkTags_links_mono (i : Nat) (L : List String) (db : DB) (x : Nat × Nat)
    (h : x ∈ db.links) : x ∈ (linkTags db i L).1.links := by
  induction L generalizing db with
  | nil => exact h
  | cons m rest ih =>
    simp only [linkTags]
    exact ih _ (linkTag_links_mono db i m x h)

/-- A resolved tag id survives any later `linkTag` step (rows are only
appended, and `find?` returns the first match). -/
theorem tagIdOf_stable_linkTag (db : DB) (i : Nat) (m n : String) (tid : Nat)
    (h : tagIdOf db n = some tid) : tagIdOf (linkTag db i m).1 n = some tid := by
  obtain ⟨row, hrow, hrid⟩ : ∃ row, db.tags.find? (fun t => t.name == n) = some row ∧
      row.id = tid := by
    rcases hf : db.tags.find? (fun t => t.name == n) with _ | row
    · simp [tagIdOf, hf] at h
    · refine ⟨row, hf, ?_⟩
      simpa [tagIdOf, hf] using h
  rcases linkTag_tags_cases db i m with hc | ⟨hc, _⟩
  · simp [tagIdOf, hc, hrow, hrid]
  · simp [tagIdOf, hc, find?_append_some _ _ _ _ hrow, hrid]

theorem tagIdOf_stable_linkTags (i : Nat) (L : List String) (db : DB) (n : String) (tid : Nat)
    (h : tagIdOf db n = some tid) : tagIdOf (linkTags db i L).1 n = some tid := by
  induction L generalizing db with
  | nil => exact h
  | cons m rest ih =>
    simp only [linkTags]
    exact ih _ (tagIdOf_stable_linkTag db i m n tid h)

/-- Processing the name `n` resolves (or creates) a row for it and leaves
the association `(i, that row's id)` present — whether the insert
succeeded or was a duplicate, the pair is in the table afterwards. -/
theorem linkTag_hit (db : DB) (i : Nat) (n : String) :
    ∃ tid, tagIdOf (linkTag db i n).1 n = some tid ∧
      (i, tid) ∈ (linkTag db i n).1.links ∧
      ∀ t0, tagIdOf db n = some t0 → tid = t0 := by
  rcases hf : db.tags.find? (fun t => t.name == n) with _ | row
  · refine ⟨db.nextTagId, ?_, ?_, ?_⟩
    · have hfa : (db.tags ++ [(⟨db.nextTagId, n⟩ : TagRow)]).find? (fun t => t.name == n) =
          some ⟨db.nextTagId, n⟩ := by
        rw [find?_append_none _ _ _ hf]
        simp [List.find?]
      simp only [linkTag, hf]
      split <;> simp [tagIdOf, hfa]
    · simp only [linkTag, hf]
      split
      · next hmem => exact hmem
      · exact List.mem_append_right _ (by simp)
    · intro t0 h0
      simp [tagIdOf, hf] at h0
  · refine ⟨row.id, ?_, ?_, ?_⟩
    · simp only [linkTag, hf]
      split <;> simp [tagIdOf, hf]
    · simp only [linkTag, hf]
      split
      · next hmem => exact hmem
      · exact List.mem_append_right _ (by simp)
    · intro t0 h0
      simpa [tagIdOf, hf] using h0

/-- `linkTags` over a list containing `n`: afterwards `n` resolves to some
id `tid`, the association `(i, tid)` is present, and `tid` agrees with any
id `n` already resolved to beforehand. -/
theorem linkTags_hit (i : Nat) (L : List String) (db : DB) (n : String) (hn : n ∈ L) :
    ∃ tid, tagIdOf (linkTags db i L).1 n = some tid ∧
      (i, tid) ∈ (linkTags db i L).1.links ∧
      ∀ t0, tagIdOf db n = some t0 → tid = t0 := by
  induction L generalizing db with
  | nil => cases hn
  | cons m rest ih =>
    rcases List.mem_cons.mp hn with rfl | hmem
    · obtain ⟨tid, h1, h2, h3⟩ := linkTag_hit db i n
      refine ⟨tid, ?_, ?_, h3⟩
      · simp only [linkTags]
        exact tagIdOf_stable_linkTags i rest _ n tid h1
      · simp only [linkTags]
        exact linkTags_links_mono i rest _ _ h2
    · obtain ⟨tid, h1, h2, h3⟩ := ih (linkTag db i m).1 hmem
      refine ⟨tid, ?_, ?_, ?_⟩
      · simp only [linkTags]
        exact h1
      · simp only [linkTags]
        exact h2
      · intro t0 h0
        exact h3 t0 (tagIdOf_stable_linkTag db i m n t0 h0)

/-- A `linkTag` step never creates a second row with a name that already
has one: the number of rows named `n` stays at most one. -/
theorem linkTag_countP_le (db : DB) (i : Nat) (m n : String)
    (h : db.tags.countP (fun t => t.name == n) ≤ 1) :
    (linkTag db i m).1.tags.countP (fun t => t.name == n) ≤ 1 := by
  rcases linkTag_tags_cases db i m with hc | ⟨hc, hf⟩
  · rw [hc]; exact h
  · rw [hc, List.countP_append]
    by_cases hmn : m = n
    · subst hmn
      have h0 : db.tags.countP (fun t => t.name == m) = 0 := by
        rw [List.countP_eq_zero]
        intro a ha
        exact List.find?_eq_none.mp hf a ha
      rw [h0]
      simp [List.countP_cons]
    · have h1 : List.countP (fun t => t.name == n) [(⟨db.nextTagId, m⟩ : TagRow)] = 0 := by
        simp [List.countP_cons, hmn]
      omega

theorem linkTags_countP_le (i : Nat) (L : List String) (db : DB) (n : String)
    (h : db.tags.countP (fun t => t.name == n) ≤ 1) :
    (linkTags db i L).1.tags.countP (fun t => t.name == n) ≤ 1 := by
  induction L generalizing db with
  | nil => exact h
  | cons m rest ih =>
    simp only [linkTags]
    exact ih _ (linkTag_countP_le db i m n h)

theorem countP_pos_of_tagIdOf (db : DB) (n : String) (tid : Nat)
    (h : tagIdOf db n = some tid) :
    1 ≤ db.tags.countP (fun t => t.name == n) := by
  rcases hf : db.tags.find? (fun t => t.name == n) with _ | row
  · simp [tagIdOf, hf] at h
  · have hmm := List.mem_of_find?_eq_some hf
    have hps := List.find?_some hf
    exact List.countP_pos.mpr ⟨row, hmm, hps⟩

theorem filter_eq_singleton_of_countP_one {α : Type} (p : α → Bool) (l : List α) (x : α)
    (h1 : l.countP p = 1) (h2 : l.find? p = some x) : l.filter p = [x] := by
  induction l with
  | nil => simp at h2
  | cons a l ih =>
    by_cases hpa : p a
    · have hax : a = x := by
        rw [List.find?_cons_of_pos _ hpa] at h2
        exact Option.some.inj h2
      subst hax
      have h0 : l.countP p = 0 := by
        rw [List.countP_cons, if_pos hpa] at h1
        omega
      have hnil : l.filter p = [] := by
        rw [List.filter_eq_nil]
        exact List.countP_eq_zero.mp h0
      rw [List.filter_cons_of_pos hpa, hnil]
    · rw [List.find?_cons_of_neg _ hpa] at h2
      rw [List.countP_cons, if_neg hpa, Nat.add_zero] at h1
      rw [List.filter_cons_of_neg hpa]
      exact ih h1 h2

/-- The state after a successful-or-failed `POST /todos/` with a string
title and a valid `order` is the one reached by inserting the cleaned todo
row and then running the tag resolve-or-create-and-link chain. -/
theorem postTodoB_state (db : DB) (origin : String) (b : TodoBody) (ov : Option Int)
    (s : String) (ho : numParam b.order = some ov) (ht : b.title = some (.str s)) :
    (postTodoB db origin b).1 =
      (linkTags (insertTodo db (⟨cleanedTitle s.data⟩ : String)
        (if truthy (b.completed.getD (.bool false)) then 1 else 0) ov).1
        db.nextTodoId (tagNames s)).1 := by
  simp only [postTodoB, ho, ht, insertTodo]
  split <;> split <;> rfl

/-- C1: for two sequentially executed create-todo requests whose (string)
titles both reference the tag name `n`, with `n` not yet in the tags
table, the final store has exactly one tags row named `n`, and both
created todo rows (ids `db.nextTodoId` and the next counter value) are
linked to that single row's id — the second request reuses the row the
first created instead of inserting a duplicate. -/
theorem c1_shared_tag_created_once (db : DB) (origin : String) (b1 b2 : TodoBody)
    (s1 s2 n : String)
    (ht1 : b1.title = some (.str s1)) (ht2 : b2.title = some (.str s2))
    (ho1 : numParam b1.order ≠ none) (ho2 : numParam b2.order ≠ none)
    (hn1 : n ∈ tagNames s1) (hn2 : n ∈ tagNames s2)
    (hnew : ∀ t ∈ db.tags, t.name ≠ n) :
    ∃ tid,
      ((postTodoB (postTodoB db origin b1).1 origin b2).1.tags.filter
        (fun t => t.name == n)) = [⟨tid, n⟩] ∧
      (db.nextTodoId, tid) ∈ (postTodoB (postTodoB db origin b1).1 origin b2).1.links ∧
      ((postTodoB db origin b1).1.nextTodoId, tid) ∈
        (postTodoB (postTodoB db origin b1).1 origin b2).1.links ∧
      (∃ r ∈ (postTodoB (postTodoB db origin b1).1 origin b2).1.todos,
        r.id = db.nextTodoId) ∧
      (∃ r ∈ (postTodoB (postTodoB db origin b1).1 origin b2).1.todos,
        r.id = (postTodoB db origin b1).1.nextTodoId) := by
  obtain ⟨ov1, ho1'⟩ := Option.ne_none_iff_exists'.mp ho1
  obtain ⟨ov2, ho2'⟩ := Option.ne_none_iff_exists'.mp ho2
  have hst1 := postTodoB_state db origin b1 ov1 s1 ho1' ht1
  have hst2 := postTodoB_state (postTodoB db origin b1).1 origin b2 ov2 s2 ho2' ht2
  -- the first request resolves-or-creates n and links the first todo
  obtain ⟨tid, h1id, h1mem, _⟩ :=
    linkTags_hit db.nextTodoId (tagNames s1)
      (insertTodo db (⟨cleanedTitle s1.data⟩ : String)
        (if truthy (b1.completed.getD (.bool false)) then 1 else 0) ov1).1 n hn1
  rw [← hst1] at h1id h1mem
  -- the second request finds the same row and links the second todo
  obtain ⟨tid2, h2id, h2mem, h2agree⟩ :=
    linkTags_hit (postTodoB db origin b1).1.nextTodoId (tagNames s2)
      (insertTodo (postTodoB db origin b1).1 (⟨cleanedTitle s2.data⟩ : String)
        (if truthy (b2.completed.getD (.bool false)) then 1 else 0) ov2).1 n hn2
  rw [← hst2] at h2id h2mem
  have hsame : tid2 = tid := h2agree tid h1id
  subst hsame
  -- the first link survives the second request
  have h1mem2 : (db.nextTodoId, tid2) ∈
      (postTodoB (postTodoB db origin b1).1 origin b2).1.links := by
    rw [hst2]
    exact linkTags_links_mono _ _ _ _ h1mem
  -- exactly one row named n
  have hcount0 : db.tags.countP (fun t => t.name == n) = 0 := by
    rw [List.countP_eq_zero]
    intro a ha
    simpa using hnew a ha
  have hcount1 : (postTodoB db origin b1).1.tags.countP (fun t => t.name == n) ≤ 1 := by
    rw [hst1]
    exact linkTags_countP_le _ _ _ n
      (by show db.tags.countP (fun t => t.name == n) ≤ 1; rw [hcount0]; omega)
  have hcount2 : (postTodoB (postTodoB db origin b1).1 origin b2).1.tags.countP
      (fun t => t.name == n) ≤ 1 := by
    rw [hst2]
    exact linkTags_countP_le _ _ _ n hcount1
  have hcountpos : 1 ≤ (postTodoB (postTodoB db origin b1).1 origin b2).1.tags.countP
      (fun t => t.name == n) :=
    countP_pos_of_tagIdOf _ n tid2 h2id
  have hcount : (postTodoB (postTodoB db origin b1).1 origin b2).1.tags.countP
      (fun t => t.name == n) = 1 :=
    Nat.le_antisymm hcount2 hcountpos
  -- the found row is ⟨tid2, n⟩
  obtain ⟨row, hrow, hrid⟩ : ∃ row,
      (postTodoB (postTodoB db origin b1).1 origin b2).1.tags.find?
        (fun t => t.name == n) = some row ∧ row.id = tid2 := by
    rcases hf : (postTodoB (postTodoB db origin b1).1 origin b2).1.tags.find?
        (fun t => t.name == n) with _ | row
    · simp [tagIdOf, hf] at h2id
    · refine ⟨row, hf, ?_⟩
      simpa [tagIdOf, hf] using h2id
  have hrname : row.name = n := by simpa using List.find?_some hrow
  have hroweq : row = ⟨tid2, n⟩ := by
    cases row
    simp only [TagRow.mk.injEq]
    exact ⟨hrid, hrname⟩
  refine ⟨tid2, ?_, h1mem2, h2mem, ?_, ?_⟩
  · rw [← hroweq]
    exact filter_eq_singleton_of_countP_one _ _ row hcount hrow
  · refine ⟨⟨db.nextTodoId, (⟨cleanedTitle s1.data⟩ : String),
      (if truthy (b1.completed.getD (.bool false)) then 1 else 0), ov1⟩, ?_, rfl⟩
    rw [hst2, (linkTags_todos _ _ _).1]
    have : (⟨db.nextTodoId, (⟨cleanedTitle s1.data⟩ : String),
        (if truthy (b1.completed.getD (.bool false)) then 1 else 0), ov1⟩ : TodoRow) ∈
        (postTodoB db origin b1).1.todos := by
      rw [hst1, (linkTags_todos _ _ _).1]
      simp [insertTodo]
    simp [insertTodo]
    exact Or.inl this
  · refine ⟨⟨(postTodoB db origin b1).1.nextTodoId, (⟨cleanedTitle s2.data⟩ : String),
      (if truthy (b2.completed.getD (.bool false)) then 1 else 0), ov2⟩, ?_, rfl⟩
    rw [hst2, (linkTags_todos _ _ _).1]
    simp [insertTodo]

/-- Witness for `c1_shared_tag_created_once`: two posts with titles
`"x #a"` and `"y #a"` on the empty store leave one tag row named `"a"` and
both todos (ids 1 and 2) linked to it. -/
theorem c1_shared_tag_witness :
    (∃ tid,
      ((postTodoB (postTodoB ⟨[], [], [], 1, 1⟩ ("o") { title := some (.str ("x #a")) }).1
        ("o") { title := some (.str ("y #a")) }).1.tags.filter
        (fun t => t.name == ("a"))) = [⟨tid, ("a")⟩] ∧
      (1, tid) ∈ (postTodoB (postTodoB ⟨[], [], [], 1, 1⟩ ("o")
        { title := some (.str ("x #a")) }).1 ("o") { title := some (.str ("y #a")) }).1.links ∧
      ((postTodoB ⟨[], [], [], 1, 1⟩ ("o") { title := some (.str ("x #a")) }).1.nextTodoId, tid) ∈
        (postTodoB (postTodoB ⟨[], [], [], 1, 1⟩ ("o")
          { title := some (.str ("x #a")) }).1 ("o") { title := some (.str ("y #a")) }).1.links ∧
      (∃ r ∈ (postTodoB (postTodoB ⟨[], [], [], 1, 1⟩ ("o")
          { title := some (.str ("x #a")) }).1 ("o")
          { title := some (.str ("y #a")) }).1.todos, r.id = 1) ∧
      (∃ r ∈ (postTodoB (postTodoB ⟨[], [], [], 1, 1⟩ ("o")
          { title := some (.str ("x #a")) }).1 ("o")
          { title := some (.str ("y #a")) }).1.todos,
        r.id = (postTodoB ⟨[], [], [], 1, 1⟩ ("o")
          { title := some (.str ("x #a")) }).1.nextTodoId)) ∧
    (postTodoB (postTodoB ⟨[], [], [], 1, 1⟩ ("o") { title := some (.str ("x #a")) }).1
      ("o") { title := some (.str ("y #a")) }).1.links = [(1, 1), (2, 1)] :=
  ⟨c1_shared_tag_created_once ⟨[], [], [], 1, 1⟩ ("o")
    { title := some (.str ("x #a")) } { title := some (.str ("y #a")) }
    ("x #a") ("y #a") ("a") rfl rfl (by decide) (by decide) (by decide) (by decide)
    (by decide),
   by decide⟩

end TodoApp
